import Mathlib

/-!
Verification development for the claude-hyper-agents MCP server
(src/mcp/src/index.ts and src/mcp/src/db/supabase.ts).

The TypeScript tool handlers are embedded as pure Lean functions over an
explicit store state.  Store calls that can fail are modelled with Boolean
success flags; a mutating handler returns the post-call store together with
an `Except String` result, so that an entity write that happened before a
failing activity-log write is still visible in the returned store, exactly
as it persists in the real database after the handler throws.
-/

/-- Character codes matched by the JavaScript regex class `\s`
(ECMAScript WhiteSpace plus LineTerminator code points). -/
def jsWhitespaceCodes : List Nat :=
  [9, 10, 11, 12, 13, 32, 160, 5760, 8192, 8193, 8194, 8195, 8196, 8197,
   8198, 8199, 8200, 8201, 8202, 8232, 8233, 8239, 8287, 12288, 65279]

/-- Whether a character is JavaScript whitespace (`\s`, and the set trimmed
by `String.prototype.trim`). -/
def isSpaceJS (c : Char) : Bool := jsWhitespaceCodes.contains c.toNat

/-- `String.prototype.toLowerCase` restricted to its action on ASCII:
uppercase `A`-`Z` (codes 65-90) map down by 32; other characters of the
classes relevant to slug generation are fixed. -/
def toLowerJS (c : Char) : Char :=
  if 65 ≤ c.toNat ∧ c.toNat ≤ 90 then Char.ofNat (c.toNat + 32) else c

/-- Membership in the regex class `[a-z0-9\s-]` kept by
`generateSlug`'s first replace (which deletes the complement). -/
def keepChar (c : Char) : Bool :=
  (97 ≤ c.toNat && c.toNat ≤ 122) || (48 ≤ c.toNat && c.toNat ≤ 57) ||
    isSpaceJS c || c.toNat == 45

/-- Membership in the output class `[a-z0-9-]`. -/
def slugChar (c : Char) : Bool :=
  (97 ≤ c.toNat && c.toNat ≤ 122) || (48 ≤ c.toNat && c.toNat ≤ 57) ||
    c.toNat == 45

/-- Global replacement of every maximal nonempty run of characters matching
`p` by the single character `r`, as JavaScript `String.replace` does with a
`/X+/g` pattern.  The flag records whether scanning is inside a run whose
replacement was already emitted. -/
def replRun (p : Char → Bool) (r : Char) : Bool → List Char → List Char
  | _, [] => []
  | inRun, c :: cs =>
    if p c then
      if inRun then replRun p r true cs else r :: replRun p r true cs
    else c :: replRun p r false cs

/-- `String.prototype.trim`: drop JavaScript whitespace from both ends. -/
def trimJS (l : List Char) : List Char :=
  ((l.dropWhile isSpaceJS).reverse.dropWhile isSpaceJS).reverse

/-- The slug pipeline of `generateSlug` (db/supabase.ts lines 256-263)
before the final `trim()`: lowercase, delete characters outside
`[a-z0-9\s-]`, replace whitespace runs by `-`, collapse `-` runs. -/
def preSlug (l : List Char) : List Char :=
  replRun (fun c => c == '-') '-' false
    (replRun isSpaceJS '-' false ((l.map toLowerJS).filter keepChar))

/-- The full slug pipeline of `generateSlug` on character lists. -/
def slugChars (l : List Char) : List Char := trimJS (preSlug l)

/-- `generateSlug` from db/supabase.ts. -/
def generateSlug (s : String) : String := ⟨slugChars s.data⟩

/-- The task `status` enum of db/supabase.ts. -/
inductive TaskStatus
  | backlog | todo | in_progress | review | blocked | done
deriving DecidableEq, Repr

/-- The task `priority` enum of db/supabase.ts. -/
inductive PriorityLevel
  | critical | high | medium | low
deriving DecidableEq, Repr

/-- The project `status` enum of db/supabase.ts. -/
inductive ProjectStatus
  | planning | active | paused | completed | archived
deriving DecidableEq, Repr

/-- The string value of a task status, as it appears on the wire and in the
dynamic activity action tag `task_<status>`. -/
def statusName : TaskStatus → String
  | .backlog => "backlog"
  | .todo => "todo"
  | .in_progress => "in_progress"
  | .review => "review"
  | .blocked => "blocked"
  | .done => "done"

/-- `String.prototype.toLowerCase` on whole strings. -/
def lowerStr (s : String) : String := ⟨s.data.map toLowerJS⟩

/-- A row of the `projects` table (fields the handlers read or write; the
`settings` map is represented by its `autonomous` flag, the only key the
handlers ever put in it). -/
structure Project where
  id : String
  name : String
  slug : String
  description : Option String
  status : ProjectStatus
  template : Option String
  settingsAutonomous : Bool
deriving DecidableEq, Repr

/-- A row of the `tasks` table.  Timestamps are abstract instants
(`Nat`); the handlers only ever store the current instant in them. -/
structure TaskRow where
  id : String
  project_id : String
  parent_id : Option String
  title : String
  description : Option String
  status : TaskStatus
  priority : PriorityLevel
  assigned_team : Option String
  assigned_agent : Option String
  estimated_hours : Option Int
  actual_hours : Option Int
  started_at : Option Nat
  completed_at : Option Nat
  blocker_reason : Option String
  tags : List String
  created_by : Option String
  updated_by : Option String
  created_at : Nat
deriving DecidableEq, Repr

/-- A row of the append-only `activity_log` table (the free-form `details`
payload is not modelled; no claim mentions it). -/
structure ActivityRow where
  project_id : Option String
  team : Option String
  agent : String
  action : String
  related_id : Option String
  related_type : Option String
deriving DecidableEq, Repr

/-- The persistent store.  `activity` is kept most-recent-first, so a
`created_at` descending query is list order. -/
structure Store where
  projects : List Project
  tasks : List TaskRow
  activity : List ActivityRow
deriving DecidableEq, Repr

/-- `select().eq('id', id).single()` on `tasks`. -/
def getTask (st : Store) (id : String) : Option TaskRow :=
  st.tasks.find? (fun t => t.id == id)

/-- `select().eq('id', id).single()` on `projects`. -/
def getProjectRow (st : Store) (id : String) : Option Project :=
  st.projects.find? (fun p => p.id == id)

/-- `update(fields).eq('id', id)` on `tasks`: replace the matching row. -/
def putTask (st : Store) (id : String) (t' : TaskRow) : Store :=
  { st with tasks := st.tasks.map (fun u => if u.id == id then t' else u) }

/-- `update(fields).eq('id', id)` on `projects`. -/
def putProject (st : Store) (id : String) (p' : Project) : Store :=
  { st with projects := st.projects.map (fun u => if u.id == id then p' else u) }

/-- The row `logActivity` (db/supabase.ts lines 313-331) inserts. -/
def mkActivity (agent action : String)
    (project_id team related_id related_type : Option String) : ActivityRow :=
  { project_id, team, agent, action, related_id, related_type }

/-- Append one activity row (insert into the append-only table). -/
def logTo (st : Store) (row : ActivityRow) : Store :=
  { st with activity := row :: st.activity }

/-- The row `ha_project_create` inserts (index.ts lines 35-48): status
forced to `planning`, slug derived from the name. -/
def newProject (name : String) (description template : Option String)
    (autonomous : Option Bool) (newId : String) : Project :=
  { id := newId, name, slug := generateSlug name, description,
    status := .planning, template,
    settingsAutonomous := autonomous.getD false }

/-- The `ha_project_create` tool handler (index.ts lines 22-58).
`newId` is the id the store assigns to the inserted row; `insertOk` and
`logOk` model success of the two store calls.  The returned store is the
state the database is left in even when the handler throws. -/
def ha_project_create (st : Store) (name : String)
    (description template : Option String) (autonomous : Option Bool)
    (newId : String) (insertOk logOk : Bool) : Store × Except String Project :=
  if insertOk then
    let p : Project := newProject name description template autonomous newId
    let st1 := { st with projects := p :: st.projects }
    if logOk then
      (logTo st1 (mkActivity "system" "project_created" (some newId) none none none),
       .ok p)
    else (st1, .error "activity log insert failed")
  else (st, .error "Failed to create project")

/-- A patch for `ha_project_update`; `none` is an absent argument.  The
`settings` object is represented by its `autonomous` flag. -/
structure ProjectPatch where
  name : Option String
  description : Option String
  status : Option ProjectStatus
  settingsAutonomous : Option Bool
deriving DecidableEq, Repr

/-- The field application of `ha_project_update` (index.ts lines 116-126).
`if (updates.name)` is a JavaScript truthiness test, so an empty-string
name is skipped; `description` uses an `!== undefined` presence test. -/
def applyProjectPatch (p : Project) (patch : ProjectPatch) : Project :=
  let p1 := match patch.name with
    | some n => if n = "" then p else { p with name := n, slug := generateSlug n }
    | none => p
  let p2 := match patch.description with
    | some d => { p1 with description := some d }
    | none => p1
  let p3 := match patch.status with
    | some s => { p2 with status := s }
    | none => p2
  match patch.settingsAutonomous with
  | some b => { p3 with settingsAutonomous := b }
  | none => p3

/-- The `ha_project_update` tool handler (index.ts lines 106-143).
`updOk` models the update store call succeeding and matching a row. -/
def ha_project_update (st : Store) (project_id : String) (patch : ProjectPatch)
    (updOk logOk : Bool) : Store × Except String Project :=
  match (if updOk then getProjectRow st project_id else none) with
  | none => (st, .error "Failed to update project")
  | some p =>
    let p' := applyProjectPatch p patch
    let st1 := putProject st project_id p'
    if logOk then
      (logTo st1 (mkActivity "system" "project_updated" (some project_id) none none none),
       .ok p')
    else (st1, .error "activity log insert failed")

/-- The row `ha_task_create` inserts (index.ts lines 165-192): status
forced to `backlog`, priority defaulted to `medium`, team and agent
lowercased, timestamps and blocker fields null. -/
def newTask (project_id title : String) (description team agent : Option String)
    (priority : Option PriorityLevel) (parent_id : Option String)
    (estimated_hours : Option Int) (tags : Option (List String))
    (newId : String) (now : Nat) : TaskRow :=
  { id := newId, project_id, parent_id, title, description,
    status := .backlog, priority := priority.getD .medium,
    assigned_team := team.map lowerStr,
    assigned_agent := agent.map lowerStr,
    estimated_hours, actual_hours := none,
    started_at := none, completed_at := none, blocker_reason := none,
    tags := tags.getD [],
    created_by := some (agent.getD "system"), updated_by := none,
    created_at := now }

/-- The `ha_task_create` tool handler (index.ts lines 148-207). -/
def ha_task_create (st : Store) (project_id title : String)
    (description team agent : Option String) (priority : Option PriorityLevel)
    (parent_id : Option String) (estimated_hours : Option Int)
    (tags : Option (List String)) (newId : String) (now : Nat)
    (insertOk logOk : Bool) : Store × Except String TaskRow :=
  if insertOk then
    let t : TaskRow := newTask project_id title description team agent priority
      parent_id estimated_hours tags newId now
    let st1 := { st with tasks := t :: st.tasks }
    if logOk then
      (logTo st1 (mkActivity (agent.getD "system") "task_created"
        (some project_id) team (some newId) (some "task")), .ok t)
    else (st1, .error "activity log insert failed")
  else (st, .error "Failed to create task")

/-- A patch for `ha_task_update`; `none` is an absent argument. -/
structure TaskPatch where
  title : Option String
  description : Option String
  status : Option TaskStatus
  priority : Option PriorityLevel
  team : Option String
  agent : Option String
  estimated_hours : Option Int
  actual_hours : Option Int
deriving DecidableEq, Repr

/-- `if (updates.title) updateData.title = ...` (a truthiness test: an
empty string is skipped). -/
def patchTitleStep (patch : TaskPatch) (t : TaskRow) : TaskRow :=
  match patch.title with
  | some s => if s = "" then t else { t with title := s }
  | none => t

/-- `if (updates.description !== undefined)` (a presence test). -/
def patchDescriptionStep (patch : TaskPatch) (t : TaskRow) : TaskRow :=
  match patch.description with
  | some d => { t with description := some d }
  | none => t

/-- `if (updates.status) { ... }` (index.ts lines 261-265): sets the
status and stamps `started_at` / `completed_at` unconditionally on
`in_progress` / `done`; `blocker_reason` is not touched. -/
def patchStatusStep (patch : TaskPatch) (now : Nat) (t : TaskRow) : TaskRow :=
  match patch.status with
  | some s =>
    { t with
      status := s,
      started_at := if s = .in_progress then some now else t.started_at,
      completed_at := if s = .done then some now else t.completed_at }
  | none => t

/-- `if (updates.priority) updateData.priority = ...`. -/
def patchPriorityStep (patch : TaskPatch) (t : TaskRow) : TaskRow :=
  match patch.priority with
  | some pr => { t with priority := pr }
  | none => t

/-- `if (updates.team) updateData.assigned_team = ...toLowerCase()`. -/
def patchTeamStep (patch : TaskPatch) (t : TaskRow) : TaskRow :=
  match patch.team with
  | some s => if s = "" then t else { t with assigned_team := some (lowerStr s) }
  | none => t

/-- `if (updates.agent) updateData.assigned_agent = ...toLowerCase()`. -/
def patchAgentStep (patch : TaskPatch) (t : TaskRow) : TaskRow :=
  match patch.agent with
  | some s => if s = "" then t else { t with assigned_agent := some (lowerStr s) }
  | none => t

/-- `if (updates.estimated_hours !== undefined)`. -/
def patchEstStep (patch : TaskPatch) (t : TaskRow) : TaskRow :=
  match patch.estimated_hours with
  | some v => { t with estimated_hours := some v }
  | none => t

/-- `if (updates.actual_hours !== undefined)`. -/
def patchActualStep (patch : TaskPatch) (t : TaskRow) : TaskRow :=
  match patch.actual_hours with
  | some v => { t with actual_hours := some v }
  | none => t

/-- The field application of `ha_task_update` (index.ts lines 255-270):
`updated_by` is always written (defaulted to `"system"`), then each
present patch field is applied in source order. -/
def applyTaskPatch (t : TaskRow) (patch : TaskPatch) (updated_by : Option String)
    (now : Nat) : TaskRow :=
  patchActualStep patch (patchEstStep patch (patchAgentStep patch
    (patchTeamStep patch (patchPriorityStep patch (patchStatusStep patch now
      (patchDescriptionStep patch (patchTitleStep patch
        { t with updated_by := some (updated_by.getD "system") })))))))

/-- The `ha_task_update` tool handler (index.ts lines 240-285).  It makes
no activity-log call. -/
def ha_task_update (st : Store) (task_id : String) (patch : TaskPatch)
    (updated_by : Option String) (now : Nat) (updOk : Bool) :
    Store × Except String TaskRow :=
  match (if updOk then getTask st task_id else none) with
  | none => (st, .error "Failed to update task")
  | some t =>
    let t' := applyTaskPatch t patch updated_by now
    (putTask st task_id t', .ok t')

/-- The field set `ha_task_assign` writes (index.ts lines 298-305): team
and agent lowercased, a missing agent stored as null, status forced to
`todo`. -/
def assignFields (t : TaskRow) (team : String) (agent : Option String) : TaskRow :=
  { t with
    assigned_team := some (lowerStr team),
    assigned_agent := agent.map lowerStr,
    status := .todo,
    updated_by := some (agent.getD "system") }

/-- The `ha_task_assign` tool handler (index.ts lines 287-323). -/
def ha_task_assign (st : Store) (task_id team : String) (agent : Option String)
    (updOk logOk : Bool) : Store × Except String TaskRow :=
  match (if updOk then getTask st task_id else none) with
  | none => (st, .error "Failed to assign task")
  | some t =>
    let t' := assignFields t team agent
    let st1 := putTask st task_id t'
    if logOk then
      (logTo st1 (mkActivity (agent.getD "system") "task_assigned"
        (some t'.project_id) (some team) (some task_id) (some "task")), .ok t')
    else (st1, .error "activity log insert failed")

/-- The field set `ha_task_status` writes (index.ts lines 336-344).
`status === 'blocked' && notes` is a truthiness test, so empty notes leave
`blocker_reason` alone; any non-blocked status nulls it.  `started_at` and
`completed_at` are stamped unconditionally. -/
def statusFields (t : TaskRow) (status : TaskStatus) (agent notes : Option String)
    (now : Nat) : TaskRow :=
  { t with
    status,
    updated_by := some (agent.getD "system"),
    started_at := if status = .in_progress then some now else t.started_at,
    completed_at := if status = .done then some now else t.completed_at,
    blocker_reason :=
      if status = .blocked then
        match notes with
        | some n => if n = "" then t.blocker_reason else some n
        | none => t.blocker_reason
      else none }

/-- The `ha_task_status` tool handler (index.ts lines 325-366).  The
activity action tag is the dynamic string `task_<status>`. -/
def ha_task_status (st : Store) (task_id : String) (status : TaskStatus)
    (agent notes : Option String) (now : Nat) (updOk logOk : Bool) :
    Store × Except String TaskRow :=
  match (if updOk then getTask st task_id else none) with
  | none => (st, .error "Failed to update status")
  | some t =>
    let t' := statusFields t status agent notes now
    let st1 := putTask st task_id t'
    if logOk then
      (logTo st1 (mkActivity (agent.getD "system") ("task_" ++ statusName status)
        (some t'.project_id) t'.assigned_team (some task_id) (some "task")), .ok t')
    else (st1, .error "activity log insert failed")

/-- Modelled from the spec: the store's ordering of the task `priority`
column.  The SQL schema that declares the column's enum order is not part
of src/, and §4.4 of the spec fixes the explicit total order
`critical < high < medium < low`. -/
def priorityRank : PriorityLevel → Nat
  | .critical => 0
  | .high => 1
  | .medium => 2
  | .low => 3

/-- The row order requested by `.order('priority').order('created_at',
{ ascending: false })`: priority ascending, then creation time
descending. -/
def taskBefore (a b : TaskRow) : Prop :=
  priorityRank a.priority < priorityRank b.priority ∨
    (priorityRank a.priority = priorityRank b.priority ∧ b.created_at ≤ a.created_at)

instance : DecidableRel taskBefore := fun a b => by
  unfold taskBefore; infer_instance

instance : IsTotal TaskRow taskBefore :=
  ⟨by intro a b; unfold taskBefore; omega⟩

instance : IsTrans TaskRow taskBefore :=
  ⟨by intro a b c; unfold taskBefore; omega⟩

/-- The five statuses of the `.in('status', [...])` filter used when
`include_done` is unset. -/
def activeStatuses : List TaskStatus :=
  [.backlog, .todo, .in_progress, .review, .blocked]

/-- The `ha_task_my_tasks` tool handler (index.ts lines 368-395).  The
store's sort is modelled by insertion sort under `taskBefore`. -/
def ha_task_my_tasks (st : Store) (agent : String) (include_done : Option Bool)
    (queryOk : Bool) : Except String (List TaskRow) :=
  if queryOk then
    let base := st.tasks.filter (fun t => t.assigned_agent == some (lowerStr agent))
    let rows := if include_done.getD false then base
      else base.filter (fun t => activeStatuses.contains t.status)
    .ok (List.insertionSort taskBefore rows)
  else .error "Failed to get tasks"

/-- The `ha_task_team_tasks` tool handler (index.ts lines 397-424). -/
def ha_task_team_tasks (st : Store) (team : String) (include_done : Option Bool)
    (queryOk : Bool) : Except String (List TaskRow) :=
  if queryOk then
    let base := st.tasks.filter (fun t => t.assigned_team == some (lowerStr team))
    let rows := if include_done.getD false then base
      else base.filter (fun t => activeStatuses.contains t.status)
    .ok (List.insertionSort taskBefore rows)
  else .error "Failed to get team tasks"

/-- One step of the JavaScript reduce `acc[k] = (acc[k] ?? 0) + 1` on an
insertion-ordered string-keyed map. -/
def bump (acc : List (String × Nat)) (k : String) : List (String × Nat) :=
  if acc.any (fun kv => kv.1 == k) then
    acc.map (fun kv => if kv.1 == k then (kv.1, kv.2 + 1) else kv)
  else acc ++ [(k, 1)]

/-- The composite payload of `ha_status_project`. -/
structure Dashboard where
  project : Project
  total : Nat
  by_status : List (String × Nat)
  by_team : List (String × Nat)
  recent_activity : List ActivityRow
deriving DecidableEq, Repr

/-- The `ha_status_project` tool handler (index.ts lines 479-520).  Only a
failed project fetch throws; a failed tasks or activity fetch leaves its
`data` null, which `?? []` turns into an empty list.  Tasks with a truthy
(nonempty) `assigned_team` feed the team map; every task counts in the
total.  The handler is a pure read: it takes no store forward. -/
def ha_status_project (st : Store) (project_id : String)
    (projectOk tasksOk activityOk : Bool) : Except String Dashboard :=
  match (if projectOk then getProjectRow st project_id else none) with
  | none => .error "Project not found"
  | some p =>
    let tasks := if tasksOk then
      st.tasks.filter (fun t => t.project_id == project_id) else []
    let recent := if activityOk then
      (st.activity.filter (fun a => a.project_id == some project_id)).take 10
      else []
    .ok { project := p, total := tasks.length,
          by_status := tasks.foldl (fun acc t => bump acc (statusName t.status)) [],
          by_team := tasks.foldl (fun acc t =>
            match t.assigned_team with
            | some tm => if tm = "" then acc else bump acc tm
            | none => acc) [],
          recent_activity := recent }

/-- A successful task-list result is sorted by `taskBefore`; a failed one
imposes nothing. -/
def sortedOk : Except String (List TaskRow) → Prop
  | .ok l => l.Sorted taskBefore
  | .error _ => True

/-- A sample task, mid-progress, used to exercise the handlers on concrete
inputs. -/
def tSample : TaskRow :=
  { id := "t1", project_id := "p1", parent_id := none,
    title := "Design homepage", description := none,
    status := .in_progress, priority := .medium,
    assigned_team := some "pixelcraft", assigned_agent := some "ava",
    estimated_hours := none, actual_hours := none,
    started_at := some 5, completed_at := none,
    blocker_reason := none, tags := [], created_by := some "ava",
    updated_by := none, created_at := 1 }

/-- A sample blocked task carrying a blocker reason. -/
def tBlocked : TaskRow :=
  { tSample with
    id := "t2", status := .blocked, priority := .high,
    blocker_reason := some "waiting on assets", created_at := 2 }

/-- A sample project. -/
def pSample : Project :=
  { id := "p1", name := "Acme Launch", slug := "acme-launch",
    description := none, status := .planning, template := none,
    settingsAutonomous := false }

/-- A sample store holding the project and both tasks. -/
def stSample : Store :=
  { projects := [pSample], tasks := [tSample, tBlocked], activity := [] }

/-- A patch that only sets `status := done`. -/
def patchDoneOnly : TaskPatch :=
  { title := none, description := none, status := some .done,
    priority := none, team := none, agent := none,
    estimated_hours := none, actual_hours := none }

theorem mem_replRun {p : Char → Bool} {r : Char} :
    ∀ {b : Bool} {l : List Char} {c : Char}, c ∈ replRun p r b l →
      c = r ∨ (c ∈ l ∧ p c = false) := by
  intro b l
  induction l generalizing b with
  | nil => intro c h; simp [replRun] at h
  | cons a as ih =>
    intro c h
    by_cases hp : p a = true
    · cases b with
      | true =>
        simp only [replRun, hp, if_true] at h
        rcases ih h with h1 | h2
        · exact Or.inl h1
        · exact Or.inr ⟨List.mem_cons_of_mem _ h2.1, h2.2⟩
      | false =>
        simp only [replRun, hp, if_true, Bool.false_eq_true, if_false, List.mem_cons] at h
        rcases h with h1 | h1
        · exact Or.inl h1
        · rcases ih h1 with h2 | h3
          · exact Or.inl h2
          · exact Or.inr ⟨List.mem_cons_of_mem _ h3.1, h3.2⟩
    · have hp' : p a = false := by simpa using hp
      simp only [replRun, hp', Bool.false_eq_true, if_false, List.mem_cons] at h
      rcases h with h1 | h1
      · exact Or.inr ⟨by simp [h1], by simpa [h1] using hp'⟩
      · rcases ih h1 with h2 | h3
        · exact Or.inl h2
        · exact Or.inr ⟨List.mem_cons_of_mem _ h3.1, h3.2⟩

theorem replRun_eq_self {p : Char → Bool} {r : Char} {l : List Char}
    (h : ∀ c ∈ l, p c = false) : ∀ b, replRun p r b l = l := by
  induction l with
  | nil => intro b; rfl
  | cons a as ih =>
    intro b
    have ha : p a = false := h a (by simp)
    have ih' := ih (fun c hc => h c (List.mem_cons_of_mem _ hc))
    simp [replRun, ha, ih' false]

theorem replRun_chain' (p : Char → Bool) (r : Char) :
    ∀ l : List Char,
      (List.Chain' (fun a b => ¬(p a = true ∧ p b = true)) (replRun p r false l) ∧
       List.Chain' (fun a b => ¬(p a = true ∧ p b = true)) (replRun p r true l)) ∧
      (∀ h, (replRun p r true l).head? = some h → p h = false) := by
  intro l
  induction l with
  | nil => refine ⟨⟨by simp [replRun], by simp [replRun]⟩, ?_⟩; intro h hh; simp [replRun] at hh
  | cons a as ih =>
    obtain ⟨⟨ihf, iht⟩, ihh⟩ := ih
    by_cases hp : p a = true
    · refine ⟨⟨?_, ?_⟩, ?_⟩
      · simp only [replRun, hp, if_true, if_false]
        cases hhead : (replRun p r true as).head? with
        | none =>
          have : replRun p r true as = [] := by
            cases hr : replRun p r true as with
            | nil => rfl
            | cons x xs => rw [hr] at hhead; simp at hhead
          simp [this]
        | some h =>
          have hh := ihh h hhead
          cases hr : replRun p r true as with
          | nil => simp
          | cons x xs =>
            rw [hr] at hhead iht
            simp only [List.head?_cons, Option.some.injEq] at hhead
            subst hhead
            exact List.chain'_cons.mpr ⟨fun hc => by simp [hh] at hc, iht⟩
      · simpa [replRun, hp] using iht
      · intro h hh
        simp only [replRun, hp, if_true] at hh
        exact ihh h hh
    · have hp' : p a = false := by simpa using hp
      have head_tail : ∀ h, (replRun p r false as).head? = some h →
          ¬(p a = true ∧ p h = true) := by
        intro h hh hc
        exact hp (hc.1)
      refine ⟨⟨?_, ?_⟩, ?_⟩
      · simp only [replRun, hp', Bool.false_eq_true, if_false]
        cases hr : replRun p r false as with
        | nil => simp
        | cons x xs =>
          rw [hr] at ihf
          exact List.chain'_cons.mpr ⟨fun hc => hp hc.1, ihf⟩
      · simp only [replRun, hp', Bool.false_eq_true, if_false]
        cases hr : replRun p r false as with
        | nil => simp
        | cons x xs =>
          rw [hr] at ihf
          exact List.chain'_cons.mpr ⟨fun hc => hp hc.1, ihf⟩
      · intro h hh
        simp only [replRun, hp', Bool.false_eq_true, if_false, List.head?_cons,
          Option.some.injEq] at hh
        subst hh
        exact hp'

theorem slugChar_of_keep_notSpace {c : Char} (hk : keepChar c = true)
    (hs : isSpaceJS c = false) : slugChar c = true := by
  simp only [keepChar, hs, Bool.or_false, Bool.false_or] at hk
  simpa [slugChar] using hk

theorem slugChar_not_space {c : Char} (h : slugChar c = true) :
    isSpaceJS c = false := by
  by_contra hs
  have hs' : isSpaceJS c = true := by simpa using hs
  simp only [slugChar, Bool.or_eq_true, Bool.and_eq_true, decide_eq_true_eq,
    beq_iff_eq] at h
  have hm : c.toNat ∈ jsWhitespaceCodes := List.mem_of_elem_eq_true hs'
  simp only [jsWhitespaceCodes, List.mem_cons, List.not_mem_nil, or_false] at hm
  omega

theorem toLowerJS_fixed {c : Char} (h : slugChar c = true) : toLowerJS c = c := by
  simp only [slugChar, Bool.or_eq_true, Bool.and_eq_true, decide_eq_true_eq,
    beq_iff_eq] at h
  have hn : ¬(65 ≤ c.toNat ∧ c.toNat ≤ 90) := by omega
  simp [toLowerJS, hn]

theorem keepChar_of_slugChar {c : Char} (h : slugChar c = true) :
    keepChar c = true := by
  simp only [slugChar, Bool.or_eq_true, Bool.and_eq_true, decide_eq_true_eq,
    beq_iff_eq] at h
  simp only [keepChar, Bool.or_eq_true, Bool.and_eq_true, decide_eq_true_eq,
    beq_iff_eq]
  tauto

theorem mem_preSlug_slugChar {l : List Char} {c : Char} (h : c ∈ preSlug l) :
    slugChar c = true := by
  rcases mem_replRun h with h1 | ⟨h2, _⟩
  · subst h1; simp [slugChar]
  · rcases mem_replRun h2 with h3 | ⟨h4, h5⟩
    · subst h3; simp [slugChar]
    · have hk : keepChar c = true := (List.mem_filter.mp h4).2
      exact slugChar_of_keep_notSpace hk h5

theorem dropWhile_eq_self_of (p : Char → Bool) (l : List Char)
    (h : ∀ c ∈ l, p c = false) : l.dropWhile p = l := by
  cases l with
  | nil => rfl
  | cons a as => simp [List.dropWhile_cons, h a (by simp)]

theorem trimJS_eq_self {l : List Char} (h : ∀ c ∈ l, isSpaceJS c = false) :
    trimJS l = l := by
  unfold trimJS
  rw [dropWhile_eq_self_of _ _ h,
    dropWhile_eq_self_of _ _ (fun c hc => h c (List.mem_reverse.mp hc)),
    List.reverse_reverse]

theorem slugChars_eq_preSlug (l : List Char) : slugChars l = preSlug l :=
  trimJS_eq_self fun _ hc => slugChar_not_space (mem_preSlug_slugChar hc)

theorem mem_slugChars_slugChar {l : List Char} {c : Char}
    (h : c ∈ slugChars l) : slugChar c = true :=
  mem_preSlug_slugChar (slugChars_eq_preSlug l ▸ h)

theorem preSlug_chain' (l : List Char) :
    List.Chain' (fun a b => ¬(a = '-' ∧ b = '-')) (preSlug l) := by
  have h := ((replRun_chain' (fun c => c == '-') '-'
    (replRun isSpaceJS '-' false ((l.map toLowerJS).filter keepChar))).1).1
  refine h.imp ?_
  intro a b hab hc
  exact hab ⟨by simp [hc.1], by simp [hc.2]⟩

theorem map_eq_self_of {f : Char → Char} {l : List Char}
    (h : ∀ c ∈ l, f c = c) : l.map f = l := by
  induction l with
  | nil => rfl
  | cons a as ih => simp [h a (by simp), ih (fun c hc => h c (by simp [hc]))]

theorem replRun_id_of_chain' {p : Char → Bool} {r : Char}
    (hpr : ∀ c, p c = true → c = r) :
    ∀ l : List Char, List.Chain' (fun a b => ¬(p a = true ∧ p b = true)) l →
      replRun p r false l = l ∧
      (∀ h, l.head? = some h → p h = false → replRun p r true l = l) := by
  intro l
  induction l with
  | nil => exact fun _ => ⟨rfl, fun _ h => by simp at h⟩
  | cons a as ih =>
    intro hch
    have hch' : List.Chain' (fun a b => ¬(p a = true ∧ p b = true)) as := hch.tail
    obtain ⟨ih1, ih2⟩ := ih hch'
    by_cases hp : p a = true
    · have har : a = r := hpr a hp
      have htail : replRun p r true as = as := by
        cases as with
        | nil => rfl
        | cons b bs =>
          have hR : ¬(p a = true ∧ p b = true) := (List.chain'_cons.mp hch).1
          have hb : p b = false := by
            cases hpb : p b with
            | false => rfl
            | true => exact absurd ⟨hp, hpb⟩ hR
          exact ih2 b rfl hb
      refine ⟨?_, ?_⟩
      · have hstep : replRun p r false (a :: as) = r :: replRun p r true as := by
          simp [replRun, hp]
        rw [hstep, htail, har]
      · intro h hh hph
        simp only [List.head?_cons, Option.some.injEq] at hh
        subst hh
        exact absurd hp (by simp [hph])
    · have hp' : p a = false := by simpa using hp
      refine ⟨?_, ?_⟩
      · simp [replRun, hp', ih1]
      · intro h _ _
        simp [replRun, hp', ih1]

theorem slugChars_idem (l : List Char) : slugChars (slugChars l) = slugChars l := by
  rw [slugChars_eq_preSlug l]
  have hmem : ∀ c ∈ preSlug l, slugChar c = true := fun c hc => mem_preSlug_slugChar hc
  have hmap : (preSlug l).map toLowerJS = preSlug l :=
    map_eq_self_of fun c hc => toLowerJS_fixed (hmem c hc)
  have hfil : (preSlug l).filter keepChar = preSlug l :=
    List.filter_eq_self.mpr fun c hc => keepChar_of_slugChar (hmem c hc)
  have hsp : replRun isSpaceJS '-' false (preSlug l) = preSlug l :=
    replRun_eq_self (fun c hc => slugChar_not_space (hmem c hc)) false
  have hch : List.Chain'
      (fun a b => ¬((a == '-') = true ∧ (b == '-') = true)) (preSlug l) := by
    refine (preSlug_chain' l).imp ?_
    intro a b hab hc
    exact hab ⟨by simpa using hc.1, by simpa using hc.2⟩
  have hhy : replRun (fun c => c == '-') '-' false (preSlug l) = preSlug l :=
    (replRun_id_of_chain' (fun c hc => by simpa using hc) (preSlug l) hch).1
  have hps : preSlug (preSlug l) = preSlug l := by
    show replRun (fun c => c == '-') '-' false
      (replRun isSpaceJS '-' false (((preSlug l).map toLowerJS).filter keepChar)) =
        preSlug l
    rw [hmap, hfil, hsp, hhy]
  show trimJS (preSlug (preSlug l)) = preSlug l
  rw [hps]
  exact trimJS_eq_self fun c hc => slugChar_not_space (hmem c hc)

theorem find?_replace {l : List TaskRow} {id : String} {t t' : TaskRow}
    (hf : l.find? (fun u => u.id == id) = some t) (hid : t'.id = t.id) :
    (l.map (fun u => if u.id == id then t' else u)).find? (fun u => u.id == id) =
      some t' := by
  induction l with
  | nil => simp at hf
  | cons a as ih =>
    by_cases ha : (a.id == id) = true
    · have hta : t = a := by
        simp only [List.find?, ha] at hf
        exact (Option.some.inj hf).symm
      have ht' : (t'.id == id) = true := by rw [hid, hta]; exact ha
      simp only [List.map_cons, if_pos ha, List.find?, ht']
    · have ha' : (a.id == id) = false := by simpa using ha
      simp only [List.find?, ha'] at hf
      simp only [List.map_cons, List.find?, ha', Bool.false_eq_true, if_false]
      exact ih hf

theorem getTask_putTask {st : Store} {id : String} {t t' : TaskRow}
    (ht : getTask st id = some t) (hid : t'.id = t.id) :
    getTask (putTask st id t') id = some t' :=
  find?_replace ht hid

theorem getTask_logTo (st : Store) (row : ActivityRow) (id : String) :
    getTask (logTo st row) id = getTask st id := rfl

theorem patchTitleStep_core (patch : TaskPatch) (t : TaskRow) :
    (patchTitleStep patch t).id = t.id ∧
    (patchTitleStep patch t).started_at = t.started_at ∧
    (patchTitleStep patch t).completed_at = t.completed_at ∧
    (patchTitleStep patch t).blocker_reason = t.blocker_reason := by
  unfold patchTitleStep
  cases patch.title with
  | none => exact ⟨rfl, rfl, rfl, rfl⟩
  | some s => by_cases h : s = "" <;> simp [h]

theorem patchDescriptionStep_core (patch : TaskPatch) (t : TaskRow) :
    (patchDescriptionStep patch t).id = t.id ∧
    (patchDescriptionStep patch t).started_at = t.started_at ∧
    (patchDescriptionStep patch t).completed_at = t.completed_at ∧
    (patchDescriptionStep patch t).blocker_reason = t.blocker_reason := by
  unfold patchDescriptionStep
  cases patch.description with
  | none => exact ⟨rfl, rfl, rfl, rfl⟩
  | some d => exact ⟨rfl, rfl, rfl, rfl⟩

theorem patchStatusStep_core (patch : TaskPatch) (now : Nat) (t : TaskRow) :
    (patchStatusStep patch now t).id = t.id ∧
    (patchStatusStep patch now t).blocker_reason = t.blocker_reason := by
  unfold patchStatusStep
  cases patch.status with
  | none => exact ⟨rfl, rfl⟩
  | some s => exact ⟨rfl, rfl⟩

theorem patchPriorityStep_core (patch : TaskPatch) (t : TaskRow) :
    (patchPriorityStep patch t).id = t.id ∧
    (patchPriorityStep patch t).started_at = t.started_at ∧
    (patchPriorityStep patch t).completed_at = t.completed_at ∧
    (patchPriorityStep patch t).blocker_reason = t.blocker_reason := by
  unfold patchPriorityStep
  cases patch.priority with
  | none => exact ⟨rfl, rfl, rfl, rfl⟩
  | some pr => exact ⟨rfl, rfl, rfl, rfl⟩

theorem patchTeamStep_core (patch : TaskPatch) (t : TaskRow) :
    (patchTeamStep patch t).id = t.id ∧
    (patchTeamStep patch t).started_at = t.started_at ∧
    (patchTeamStep patch t).completed_at = t.completed_at ∧
    (patchTeamStep patch t).blocker_reason = t.blocker_reason := by
  unfold patchTeamStep
  cases patch.team with
  | none => exact ⟨rfl, rfl, rfl, rfl⟩
  | some s => by_cases h : s = "" <;> simp [h]

theorem patchAgentStep_core (patch : TaskPatch) (t : TaskRow) :
    (patchAgentStep patch t).id = t.id ∧
    (patchAgentStep patch t).started_at = t.started_at ∧
    (patchAgentStep patch t).completed_at = t.completed_at ∧
    (patchAgentStep patch t).blocker_reason = t.blocker_reason := by
  unfold patchAgentStep
  cases patch.agent with
  | none => exact ⟨rfl, rfl, rfl, rfl⟩
  | some s => by_cases h : s = "" <;> simp [h]

theorem patchEstStep_core (patch : TaskPatch) (t : TaskRow) :
    (patchEstStep patch t).id = t.id ∧
    (patchEstStep patch t).started_at = t.started_at ∧
    (patchEstStep patch t).completed_at = t.completed_at ∧
    (patchEstStep patch t).blocker_reason = t.blocker_reason := by
  unfold patchEstStep
  cases patch.estimated_hours with
  | none => exact ⟨rfl, rfl, rfl, rfl⟩
  | some v => exact ⟨rfl, rfl, rfl, rfl⟩

theorem patchActualStep_core (patch : TaskPatch) (t : TaskRow) :
    (patchActualStep patch t).id = t.id ∧
    (patchActualStep patch t).started_at = t.started_at ∧
    (patchActualStep patch t).completed_at = t.completed_at ∧
    (patchActualStep patch t).blocker_reason = t.blocker_reason := by
  unfold patchActualStep
  cases patch.actual_hours with
  | none => exact ⟨rfl, rfl, rfl, rfl⟩
  | some v => exact ⟨rfl, rfl, rfl, rfl⟩

theorem applyTaskPatch_id (t : TaskRow) (patch : TaskPatch) (ub : Option String)
    (now : Nat) : (applyTaskPatch t patch ub now).id = t.id := by
  unfold applyTaskPatch
  rw [(patchActualStep_core patch _).1, (patchEstStep_core patch _).1,
    (patchAgentStep_core patch _).1, (patchTeamStep_core patch _).1,
    (patchPriorityStep_core patch _).1, (patchStatusStep_core patch now _).1,
    (patchDescriptionStep_core patch _).1, (patchTitleStep_core patch _).1]

theorem applyTaskPatch_blocker (t : TaskRow) (patch : TaskPatch)
    (ub : Option String) (now : Nat) :
    (applyTaskPatch t patch ub now).blocker_reason = t.blocker_reason := by
  unfold applyTaskPatch
  rw [(patchActualStep_core patch _).2.2.2, (patchEstStep_core patch _).2.2.2,
    (patchAgentStep_core patch _).2.2.2, (patchTeamStep_core patch _).2.2.2,
    (patchPriorityStep_core patch _).2.2.2, (patchStatusStep_core patch now _).2,
    (patchDescriptionStep_core patch _).2.2.2, (patchTitleStep_core patch _).2.2.2]

theorem applyTaskPatch_started_at (t : TaskRow) (patch : TaskPatch)
    (ub : Option String) (now : Nat) :
    (applyTaskPatch t patch ub now).started_at =
      (match patch.status with
       | some s => if s = .in_progress then some now else t.started_at
       | none => t.started_at) := by
  unfold applyTaskPatch
  rw [(patchActualStep_core patch _).2.1, (patchEstStep_core patch _).2.1,
    (patchAgentStep_core patch _).2.1, (patchTeamStep_core patch _).2.1,
    (patchPriorityStep_core patch _).2.1]
  have hinner : (patchDescriptionStep patch (patchTitleStep patch
      { t with updated_by := some (ub.getD "system") })).started_at =
      t.started_at := by
    rw [(patchDescriptionStep_core patch _).2.1, (patchTitleStep_core patch _).2.1]
  cases hs : patch.status with
  | none => simp [patchStatusStep, hs, hinner]
  | some s => simp [patchStatusStep, hs, hinner]

theorem applyTaskPatch_completed_at (t : TaskRow) (patch : TaskPatch)
    (ub : Option String) (now : Nat) :
    (applyTaskPatch t patch ub now).completed_at =
      (match patch.status with
       | some s => if s = .done then some now else t.completed_at
       | none => t.completed_at) := by
  unfold applyTaskPatch
  rw [(patchActualStep_core patch _).2.2.1, (patchEstStep_core patch _).2.2.1,
    (patchAgentStep_core patch _).2.2.1, (patchTeamStep_core patch _).2.2.1,
    (patchPriorityStep_core patch _).2.2.1]
  have hinner : (patchDescriptionStep patch (patchTitleStep patch
      { t with updated_by := some (ub.getD "system") })).completed_at =
      t.completed_at := by
    rw [(patchDescriptionStep_core patch _).2.2.1, (patchTitleStep_core patch _).2.2.1]
  cases hs : patch.status with
  | none => simp [patchStatusStep, hs, hinner]
  | some s => simp [patchStatusStep, hs, hinner]

theorem getTask_after_status (st : Store) (id : String) (t : TaskRow)
    (status : TaskStatus) (agent notes : Option String) (now : Nat)
    (logOk : Bool) (ht : getTask st id = some t) :
    getTask (ha_task_status st id status agent notes now true logOk).1 id =
      some (statusFields t status agent notes now) := by
  simp only [ha_task_status, ht]
  cases logOk <;> exact getTask_putTask ht rfl

theorem getTask_after_update (st : Store) (id : String) (t : TaskRow)
    (patch : TaskPatch) (ub : Option String) (now : Nat)
    (ht : getTask st id = some t) :
    getTask (ha_task_update st id patch ub now true).1 id =
      some (applyTaskPatch t patch ub now) := by
  simp only [ha_task_update, ht]
  exact getTask_putTask ht (applyTaskPatch_id t patch ub now)

theorem ha_status_project_ok (st : Store) (pid : String) (p : Project)
    (tOk aOk : Bool) (hp : getProjectRow st pid = some p) :
    ha_status_project st pid true tOk aOk = .ok
      { project := p,
        total := (if tOk then st.tasks.filter (fun t => t.project_id == pid)
          else []).length,
        by_status := (if tOk then st.tasks.filter (fun t => t.project_id == pid)
          else []).foldl (fun acc t => bump acc (statusName t.status)) [],
        by_team := (if tOk then st.tasks.filter (fun t => t.project_id == pid)
          else []).foldl (fun acc t =>
            match t.assigned_team with
            | some tm => if tm = "" then acc else bump acc tm
            | none => acc) [],
        recent_activity := if aOk then
          (st.activity.filter (fun a => a.project_id == some pid)).take 10
          else [] } := by
  simp [ha_status_project, hp]

/-- Claim C1 (counterexample): the sample store holds two tasks of project
`p1`, yet with the project fetch succeeding and the tasks fetch failing,
`ha_status_project` still returns a dashboard — with an empty task section —
instead of failing the whole call as the claim states. -/
theorem c1_degraded_dashboard_counterexample :
    (stSample.tasks.filter (fun t => t.project_id == "p1")).length = 2 ∧
    ha_status_project stSample "p1" true false true =
      .ok { project := pSample, total := 0, by_status := [], by_team := [],
            recent_activity := [] } :=
  ⟨by decide, rfl⟩

/-- Claim C1 (amended): only a failed Project fetch fails the whole
dashboard call; a failed auxiliary fetch (tasks, or the 10 most recent
activity rows) is swallowed by `?? []`, and a degraded partial dashboard —
with an empty task section or empty recent activity — is returned to the
caller. -/
theorem c1_dashboard_partial_failure (st : Store) (pid : String) (p : Project)
    (tasksOk activityOk : Bool) (hp : getProjectRow st pid = some p) :
    (∃ d : Dashboard, ha_status_project st pid true tasksOk activityOk = .ok d) ∧
    (∃ d : Dashboard, ha_status_project st pid true false activityOk = .ok d ∧
      d.total = 0 ∧ d.by_status = [] ∧ d.by_team = []) ∧
    (∃ d : Dashboard, ha_status_project st pid true tasksOk false = .ok d ∧
      d.recent_activity = []) ∧
    ha_status_project st pid false tasksOk activityOk =
      .error "Project not found" :=
  ⟨⟨_, ha_status_project_ok st pid p tasksOk activityOk hp⟩,
   ⟨_, ha_status_project_ok st pid p false activityOk hp, rfl, rfl, rfl⟩,
   ⟨_, ha_status_project_ok st pid p tasksOk false hp, rfl⟩,
   rfl⟩

/-- Claim C1 witness: the amended theorem applied to the sample store. -/
theorem c1_witness :
    (∃ d : Dashboard, ha_status_project stSample "p1" true true true = .ok d) ∧
    (∃ d : Dashboard, ha_status_project stSample "p1" true false true = .ok d ∧
      d.total = 0 ∧ d.by_status = [] ∧ d.by_team = []) ∧
    (∃ d : Dashboard, ha_status_project stSample "p1" true true false = .ok d ∧
      d.recent_activity = []) ∧
    ha_status_project stSample "p1" false true true =
      .error "Project not found" :=
  c1_dashboard_partial_failure stSample "p1" pSample true true (by decide)

/-- Claim C2 (counterexample): a task already `in_progress` with
`started_at = 5` transitions into `in_progress` again at time 9 and its
`started_at` becomes 9 — the timestamp is overwritten, not set exactly
once. -/
theorem c2_restamp_counterexample :
    tSample.status = .in_progress ∧ tSample.started_at = some 5 ∧
    (getTask (ha_task_status stSample "t1" .in_progress none none 9 true true).1
        "t1").map TaskRow.started_at = some (some 9) := by
  decide

/-- Claim C2 (amended): on every transition into `in_progress` — whether
through `ha_task_status` or through the generic `ha_task_update` with a
status patch — `started_at` is rewritten to the current time, overwriting
any previously set value, and `completed_at` behaves the same for `done`;
transitions into other statuses leave the fields unchanged. -/
theorem c2_timestamps_restamped (st : Store) (id : String) (t : TaskRow)
    (status : TaskStatus) (agent notes updated_by : Option String)
    (patch : TaskPatch) (now : Nat) (logOk : Bool)
    (ht : getTask st id = some t) (hps : patch.status = some status) :
    ((getTask (ha_task_status st id status agent notes now true logOk).1 id).map
        TaskRow.started_at =
      some (if status = .in_progress then some now else t.started_at)) ∧
    ((getTask (ha_task_status st id status agent notes now true logOk).1 id).map
        TaskRow.completed_at =
      some (if status = .done then some now else t.completed_at)) ∧
    ((getTask (ha_task_update st id patch updated_by now true).1 id).map
        TaskRow.started_at =
      some (if status = .in_progress then some now else t.started_at)) ∧
    ((getTask (ha_task_update st id patch updated_by now true).1 id).map
        TaskRow.completed_at =
      some (if status = .done then some now else t.completed_at)) := by
  have hs := getTask_after_status st id t status agent notes now logOk ht
  have hu := getTask_after_update st id t patch updated_by now ht
  refine ⟨by rw [hs]; rfl, by rw [hs]; rfl, ?_, ?_⟩
  · rw [hu]
    simp [applyTaskPatch_started_at, hps]
  · rw [hu]
    simp [applyTaskPatch_completed_at, hps]

/-- Claim C2 witness: setting the sample in-progress task to `done` at
time 9 stamps `completed_at = 9`. -/
theorem c2_witness :
    (getTask (ha_task_status stSample "t1" .done none none 9 true true).1
        "t1").map TaskRow.completed_at = some (some 9) := by
  have h := (c2_timestamps_restamped stSample "t1" tSample .done none none none
    patchDoneOnly 9 true (by decide) rfl).2.1
  simpa using h

/-- Claim C3 (counterexample): the generic update moves the sample blocked
task to `done` and its `blocker_reason` survives — non-null with a
non-blocked status, so not every status-moving operation clears it. -/
theorem c3_blocker_survives_counterexample :
    tBlocked.status = .blocked ∧
    tBlocked.blocker_reason = some "waiting on assets" ∧
    (getTask (ha_task_update stSample "t2" patchDoneOnly none 9 true).1 "t2").map
      (fun u => (u.status, u.blocker_reason)) =
      some (TaskStatus.done, some "waiting on assets") := by
  decide

/-- Claim C3 (amended): the dedicated status setter clears `blocker_reason`
on every transition to a status other than `blocked`, even when the caller
supplies no notes; but the generic update never modifies `blocker_reason`,
even when its patch moves the status away from `blocked`, so the
non-null-only-while-blocked invariant is enforced only on the
`ha_task_status` path. -/
theorem c3_blocker_reason_clearing (st : Store) (id : String) (t : TaskRow)
    (status : TaskStatus) (agent notes updated_by : Option String)
    (patch : TaskPatch) (now : Nat) (logOk : Bool)
    (ht : getTask st id = some t) (hne : status ≠ .blocked) :
    ((getTask (ha_task_status st id status agent notes now true logOk).1 id).map
        TaskRow.blocker_reason = some none) ∧
    ((getTask (ha_task_update st id patch updated_by now true).1 id).map
        TaskRow.blocker_reason = some t.blocker_reason) := by
  have hs := getTask_after_status st id t status agent notes now logOk ht
  have hu := getTask_after_update st id t patch updated_by now ht
  constructor
  · rw [hs]
    simp [statusFields, hne]
  · rw [hu]
    simp [applyTaskPatch_blocker]

/-- Claim C3 witness: the amended theorem applied to the sample blocked
task with target status `done`. -/
theorem c3_witness :
    ((getTask (ha_task_status stSample "t2" .done none none 9 true true).1
        "t2").map TaskRow.blocker_reason = some none) ∧
    ((getTask (ha_task_update stSample "t2" patchDoneOnly none 9 true).1
        "t2").map TaskRow.blocker_reason = some tBlocked.blocker_reason) :=
  c3_blocker_reason_clearing stSample "t2" tBlocked .done none none none
    patchDoneOnly 9 true (by decide) (by decide)

/-- Claim C4 (counterexample): for the same blocked task and the same new
status `done`, the dedicated setter clears `blocker_reason` while the
generic update leaves it set — the two paths do not apply the same
side-effect table. -/
theorem c4_sideeffect_tables_differ_counterexample :
    (getTask (ha_task_status stSample "t2" .done none none 9 true true).1
        "t2").map TaskRow.blocker_reason = some none ∧
    (getTask (ha_task_update stSample "t2" patchDoneOnly none 9 true).1
        "t2").map TaskRow.blocker_reason = some (some "waiting on assets") := by
  decide

/-- Claim C4 (amended): for a patch that includes a status, the generic
update applies the same timestamp side effects as the dedicated setter
(`started_at` stamped on `in_progress`, `completed_at` on `done`) and
emits no activity event at all, but it does not apply the
`blocker_reason` side effects: the field passes through unchanged, neither
set on `blocked` nor cleared on other statuses. -/
theorem c4_update_vs_status_setter (st : Store) (id : String) (t : TaskRow)
    (status : TaskStatus) (agent notes updated_by : Option String)
    (patch : TaskPatch) (now : Nat) (logOk : Bool)
    (ht : getTask st id = some t) (hps : patch.status = some status) :
    ((getTask (ha_task_update st id patch updated_by now true).1 id).map
        TaskRow.started_at =
      (getTask (ha_task_status st id status agent notes now true logOk).1 id).map
        TaskRow.started_at) ∧
    ((getTask (ha_task_update st id patch updated_by now true).1 id).map
        TaskRow.completed_at =
      (getTask (ha_task_status st id status agent notes now true logOk).1 id).map
        TaskRow.completed_at) ∧
    ((getTask (ha_task_update st id patch updated_by now true).1 id).map
        TaskRow.blocker_reason = some t.blocker_reason) ∧
    ((ha_task_update st id patch updated_by now true).1.activity = st.activity) := by
  have hs := getTask_after_status st id t status agent notes now logOk ht
  have hu := getTask_after_update st id t patch updated_by now ht
  refine ⟨?_, ?_, ?_, ?_⟩
  · rw [hs, hu]
    simp [applyTaskPatch_started_at, hps, statusFields]
  · rw [hs, hu]
    simp [applyTaskPatch_completed_at, hps, statusFields]
  · rw [hu]
    simp [applyTaskPatch_blocker]
  · simp only [ha_task_update, ht]
    rfl

/-- Claim C4 witness: the amended theorem applied to the sample blocked
task with target status `done`. -/
theorem c4_witness :
    ((getTask (ha_task_update stSample "t2" patchDoneOnly none 9 true).1
        "t2").map TaskRow.started_at =
      (getTask (ha_task_status stSample "t2" .done none none 9 true true).1
        "t2").map TaskRow.started_at) ∧
    ((getTask (ha_task_update stSample "t2" patchDoneOnly none 9 true).1
        "t2").map TaskRow.completed_at =
      (getTask (ha_task_status stSample "t2" .done none none 9 true true).1
        "t2").map TaskRow.completed_at) ∧
    ((getTask (ha_task_update stSample "t2" patchDoneOnly none 9 true).1
        "t2").map TaskRow.blocker_reason = some tBlocked.blocker_reason) ∧
    ((ha_task_update stSample "t2" patchDoneOnly none 9 true).1.activity =
      stSample.activity) :=
  c4_update_vs_status_setter stSample "t2" tBlocked .done none none none
    patchDoneOnly 9 true (by decide) rfl

/-- Claim C5 (counterexample): the printable-ASCII input `" a"` yields the
slug `"-a"`, which has a leading hyphen: the final `trim()` strips only
whitespace, which the earlier replace already turned into hyphens, so the
no-leading/trailing-hyphen part of the claim fails on the code. -/
theorem c5_leading_hyphen_counterexample :
    (∀ c ∈ (" a" : String).data, 32 ≤ c.toNat ∧ c.toNat ≤ 126) ∧
    generateSlug " a" = "-a" :=
  ⟨by decide, by decide⟩

/-- Claim C5 (amended): for every printable-ASCII input string the output
of `generateSlug` contains only characters in `[a-z0-9-]` and contains no
`--` substring; leading and trailing hyphens, however, may remain. -/
theorem c5_slug_charset_and_no_double_hyphen (s : String)
    (h : ∀ c ∈ s.data, 32 ≤ c.toNat ∧ c.toNat ≤ 126) :
    (∀ c ∈ (generateSlug s).data, slugChar c = true) ∧
    ¬ (['-', '-'] <:+: (generateSlug s).data) := by
  constructor
  · intro c hc
    exact mem_slugChars_slugChar hc
  · intro hinf
    have hd : (generateSlug s).data = preSlug s.data := slugChars_eq_preSlug s.data
    rw [hd] at hinf
    have hch := List.Chain'.infix (preSlug_chain' s.data) hinf
    exact (List.chain'_pair.mp hch) ⟨rfl, rfl⟩

/-- Claim C5 witness: the amended theorem applied to `"Acme Launch"`. -/
theorem c5_witness :
    (∀ c ∈ ("Acme Launch" : String).data, 32 ≤ c.toNat ∧ c.toNat ≤ 126) ∧
    ((∀ c ∈ (generateSlug "Acme Launch").data, slugChar c = true) ∧
     ¬ (['-', '-'] <:+: (generateSlug "Acme Launch").data)) :=
  ⟨by decide, c5_slug_charset_and_no_double_hyphen "Acme Launch" (by decide)⟩

/-- Claim C6: `generateSlug` is a pure function of its input and is
idempotent: applying it twice equals applying it once, for every input
string. -/
theorem c6_generateSlug_idempotent (s : String) :
    generateSlug (generateSlug s) = generateSlug s := by
  show (⟨slugChars (slugChars s.data)⟩ : String) = ⟨slugChars s.data⟩
  rw [slugChars_idem]

/-- Claim C7: every successful call to `ha_project_create`,
`ha_project_update`, `ha_task_create`, `ha_task_assign` or
`ha_task_status` prepends exactly one new activity row, carrying the
project id, team and related id of the entity the call changed (project
rows carry no team/related id; the task rows carry the task's project,
the team involved and the task id). -/
theorem c7_each_mutation_logs_one_row (st : Store) :
    (∀ name description template autonomous newId,
      (ha_project_create st name description template autonomous newId true true).1.activity =
        mkActivity "system" "project_created" (some newId) none none none ::
          st.activity ∧
      (ha_project_create st name description template autonomous newId true true).2 =
        .ok (newProject name description template autonomous newId)) ∧
    (∀ pid patch p, getProjectRow st pid = some p →
      (ha_project_update st pid patch true true).1.activity =
        mkActivity "system" "project_updated" (some pid) none none none ::
          st.activity ∧
      (ha_project_update st pid patch true true).2 =
        .ok (applyProjectPatch p patch)) ∧
    (∀ pid title description team agent priority parent est tags newId now,
      (ha_task_create st pid title description team agent priority parent est tags
          newId now true true).1.activity =
        mkActivity (agent.getD "system") "task_created" (some pid) team
          (some newId) (some "task") :: st.activity ∧
      (ha_task_create st pid title description team agent priority parent est tags
          newId now true true).2 =
        .ok (newTask pid title description team agent priority parent est tags
          newId now)) ∧
    (∀ tid team agent t, getTask st tid = some t →
      (ha_task_assign st tid team agent true true).1.activity =
        mkActivity (agent.getD "system") "task_assigned" (some t.project_id)
          (some team) (some tid) (some "task") :: st.activity ∧
      (ha_task_assign st tid team agent true true).2 =
        .ok (assignFields t team agent)) ∧
    (∀ tid status agent notes now t, getTask st tid = some t →
      (ha_task_status st tid status agent notes now true true).1.activity =
        mkActivity (agent.getD "system") ("task_" ++ statusName status)
          (some t.project_id) t.assigned_team (some tid) (some "task") ::
          st.activity ∧
      (ha_task_status st tid status agent notes now true true).2 =
        .ok (statusFields t status agent notes now)) := by
  refine ⟨fun name description template autonomous newId => ⟨rfl, rfl⟩,
    fun pid patch p hp => ?_,
    fun pid title description team agent priority parent est tags newId now =>
      ⟨rfl, rfl⟩,
    fun tid team agent t ht => ?_,
    fun tid status agent notes now t ht => ?_⟩
  · simp only [ha_project_update, hp]
    exact ⟨rfl, rfl⟩
  · simp only [ha_task_assign, ht]
    exact ⟨rfl, rfl⟩
  · simp only [ha_task_status, ht]
    exact ⟨rfl, rfl⟩

/-- Claim C7 witness: assigning the sample task logs exactly one
`task_assigned` row scoped to its project, team and task id. -/
theorem c7_witness :
    (ha_task_assign stSample "t1" "pixelcraft" (some "Ava") true true).1.activity =
      mkActivity "Ava" "task_assigned" (some tSample.project_id)
        (some "pixelcraft") (some "t1") (some "task") :: stSample.activity ∧
    (ha_task_assign stSample "t1" "pixelcraft" (some "Ava") true true).2 =
      .ok (assignFields tSample "pixelcraft" (some "Ava")) :=
  (c7_each_mutation_logs_one_row stSample).2.2.2.1 "t1" "pixelcraft" (some "Ava")
    tSample (by decide)

/-- Claim C8: when the activity-log insert fails after a successful entity
write, each logging mutator fails as a whole — the store error propagates
to the caller — while the entity write is not rolled back: the returned
store is exactly the entity-updated store, with no new activity row and no
compensating change. -/
theorem c8_failed_log_no_rollback (st : Store) :
    (∀ name description template autonomous newId,
      ha_project_create st name description template autonomous newId true false =
        ({ st with
            projects := newProject name description template autonomous newId ::
              st.projects },
         .error "activity log insert failed")) ∧
    (∀ pid patch p, getProjectRow st pid = some p →
      ha_project_update st pid patch true false =
        (putProject st pid (applyProjectPatch p patch),
         .error "activity log insert failed")) ∧
    (∀ pid title description team agent priority parent est tags newId now,
      ha_task_create st pid title description team agent priority parent est tags
          newId now true false =
        ({ st with
            tasks := newTask pid title description team agent priority parent
              est tags newId now :: st.tasks },
         .error "activity log insert failed")) ∧
    (∀ tid team agent t, getTask st tid = some t →
      ha_task_assign st tid team agent true false =
        (putTask st tid (assignFields t team agent),
         .error "activity log insert failed")) ∧
    (∀ tid status agent notes now t, getTask st tid = some t →
      ha_task_status st tid status agent notes now true false =
        (putTask st tid (statusFields t status agent notes now),
         .error "activity log insert failed")) := by
  refine ⟨fun name description template autonomous newId => rfl,
    fun pid patch p hp => ?_,
    fun pid title description team agent priority parent est tags newId now => rfl,
    fun tid team agent t ht => ?_,
    fun tid status agent notes now t ht => ?_⟩
  · simp only [ha_project_update, hp]
    rfl
  · simp only [ha_task_assign, ht]
    rfl
  · simp only [ha_task_status, ht]
    rfl

/-- Claim C8 witness: a failed activity insert after a status update on the
sample task yields the error, and the store keeps the updated task. -/
theorem c8_witness :
    ha_task_status stSample "t1" .review none none 9 true false =
      (putTask stSample "t1" (statusFields tSample .review none none 9),
       .error "activity log insert failed") :=
  (c8_failed_log_no_rollback stSample).2.2.2.2 "t1" .review none none 9 tSample
    (by decide)

/-- Claim C9: `ha_task_my_tasks` and `ha_task_team_tasks` return their
lists sorted primarily by priority ascending under the enum total order
critical < high < medium < low and secondarily by creation time
descending (the order `taskBefore`). -/
theorem c9_task_lists_sorted (st : Store) (agent team : String)
    (d1 d2 : Option Bool) :
    sortedOk (ha_task_my_tasks st agent d1 true) ∧
    sortedOk (ha_task_team_tasks st team d2 true) :=
  ⟨List.sorted_insertionSort taskBefore _, List.sorted_insertionSort taskBefore _⟩

/-- Claim C10: `ha_task_assign` with the optional agent argument omitted
writes `assigned_agent = null` — clearing any previously assigned agent
rather than leaving the field unchanged — and records `updated_by` as the
literal `"system"`. -/
theorem c10_assign_without_agent_clears (st : Store) (tid team : String)
    (t : TaskRow) (logOk : Bool) (ht : getTask st tid = some t) :
    (getTask (ha_task_assign st tid team none true logOk).1 tid).map
      (fun u => (u.assigned_agent, u.updated_by)) =
      some (none, some "system") := by
  have h1 : getTask (ha_task_assign st tid team none true logOk).1 tid =
      some (assignFields t team none) := by
    simp only [ha_task_assign, ht]
    cases logOk <;> exact getTask_putTask ht rfl
  rw [h1]; rfl

/-- Claim C10 witness: the sample task had agent `"ava"` assigned;
reassigning its team without an agent clears the agent and stamps
`updated_by = "system"`. -/
theorem c10_witness :
    tSample.assigned_agent = some "ava" ∧
    (getTask (ha_task_assign stSample "t1" "devforge" none true true).1
        "t1").map (fun u => (u.assigned_agent, u.updated_by)) =
      some (none, some "system") :=
  ⟨by decide, c10_assign_without_agent_clears stSample "t1" "devforge" tSample
    true (by decide)⟩
